import Mathlib

set_option autoImplicit false

namespace FoodLog

/-! # Shallow embedding of the foodlog portion-estimation pipeline

Embeds, over `ℚ` and a JSON-like value type:
* the portion arithmetic of the `/api/estimate-portion` handler (server.js)
  and of `estimatePortionFromMaskFraction` (utils/portion.js);
* the mask-locating heuristic `findMaskUrl` and the create/poll driver
  `runModelVersion` (utils/replicate-seg.js);
* the density-reply parser of `getDensityEstimateFromOpenAI` (server.js);
* the pixel classification loop of `computeMaskPixelFraction` (app.js).
JavaScript numbers are modelled as exact rationals; `Math.PI` is modelled by
the exact rational value of the IEEE-754 double `Math.PI`.
-/

/-- Exact rational value of the IEEE-754 double `Math.PI`
(JavaScript's `Math.PI` = 884279719003555 / 2^48). -/
def jsPi : ℚ := 884279719003555 / 281474976710656

/-- JavaScript `Number(x.toFixed(2))` for the nonnegative values produced by
this program: round to the nearest hundredth, ties rounded up (JS `toFixed`
rounds a positive tie to the larger candidate). -/
def toFixed2 (x : ℚ) : ℚ := ((x * 100 + 1/2).floor : ℚ) / 100

/-- JavaScript `Number(x.toFixed(1))` for nonnegative values: round to the
nearest tenth, ties rounded up. -/
def toFixed1 (x : ℚ) : ℚ := ((x * 10 + 1/2).floor : ℚ) / 10

/-! ## JSON-like values

The segmentation service's output and the request-body fields are arbitrary
JSON; `JsVal` models them as a tagged union of strings, numbers, booleans,
null/undefined, arrays and (insertion-ordered) objects. The list and field
spines are separate inductives so that the search functions below are
structural recursions the kernel can evaluate. -/

mutual
inductive JsVal : Type where
  | str (s : String)
  | num (q : ℚ)
  | bool (b : Bool)
  | null
  | arr (xs : JsList)
  | obj (fs : JsFields)
  deriving DecidableEq

inductive JsList : Type where
  | nil
  | cons (v : JsVal) (rest : JsList)
  deriving DecidableEq

inductive JsFields : Type where
  | nil
  | cons (k : String) (v : JsVal) (rest : JsFields)
  deriving DecidableEq
end

/-- JavaScript truthiness on `JsVal` (`undefined` is modelled by `null`;
`NaN` is not representable, every other falsy number is `0`). -/
def jsTruthy : JsVal → Bool
  | .str s => s != ""
  | .num q => q != 0
  | .bool b => b
  | .null => false
  | .arr _ => true
  | .obj _ => true

/-! ## Portion arithmetic (server.js `/api/estimate-portion`, lines 338-348) -/

/-- Source: `const defaultPlateDiameterCm = 25` (server.js line 338). -/
def defaultPlateDiameterCm : ℚ := 25

/-- Source: `const defaultHeightCm = 2.5` (server.js line 339). -/
def defaultHeightCm : ℚ := 5/2

/-- Source: `const plateAreaCm2 = Math.PI * Math.pow(defaultPlateDiameterCm
/ 2.0, 2)` (server.js line 340). -/
def serverPlateAreaCm2 : ℚ := jsPi * (defaultPlateDiameterCm / 2) ^ 2

/-- Source: `const estimatedVolumeMl = fraction * plateAreaCm2 *
defaultHeightCm` (server.js line 343). -/
def serverEstimatedVolumeMl (fraction : ℚ) : ℚ :=
  fraction * serverPlateAreaCm2 * defaultHeightCm

/-- Source: `const rawPortionGrams = estimatedVolumeMl * density_g_per_ml`
(server.js line 348). -/
def serverRawPortionGrams (fraction density_g_per_ml : ℚ) : ℚ :=
  serverEstimatedVolumeMl fraction * density_g_per_ml

/-- The `plateAssumptions` object of the handler's JSON response. -/
structure PlateAssumptions where
  plateDiameterCm : ℚ
  assumedHeightCm : ℚ
  plateAreaCm2 : ℚ
  deriving DecidableEq

/-- The JSON body of a successful `/api/estimate-portion` response
(server.js lines 351-362). -/
structure PortionResponse where
  foodName : JsVal
  pixelFraction : ℚ
  plateAssumptions : PlateAssumptions
  estimatedVolumeMl : ℚ
  density_g_per_ml : ℚ
  portionEstimate_g : ℚ
  deriving DecidableEq

/-- The four fields the handler destructures from `req.body`
(server.js line 320); an absent field is modelled by `JsVal.null`,
which is falsy and not a number, exactly like `undefined` in the checks. -/
structure EstimateRequest where
  imageBase64 : JsVal
  maskUrl : JsVal
  foodName : JsVal
  pixelFraction : JsVal

/-- The `/api/estimate-portion` handler (server.js lines 318-362).
The density that `getDensityEstimateFromOpenAI` would return is passed in as
`density_g_per_ml`: the code requests it only after all input checks pass and
uses it only in the arithmetic modelled here.  The two `.error` results model
the two `res.status(400).json({ error })` responses; a successful JSON
response is `.ok`. -/
def estimatePortionHandler (req : EstimateRequest) (density_g_per_ml : ℚ) :
    Except String PortionResponse :=
  if !(jsTruthy req.imageBase64 && jsTruthy req.maskUrl && jsTruthy req.foodName) then
    .error "Missing fields (imageBase64, maskUrl, foodName)"
  else
    -- const fraction = (typeof pixelFraction === 'number' && pixelFraction > 0
    --                   && pixelFraction <= 1) ? pixelFraction : null;
    -- if (!fraction) return 400;   (a number in (0,1] is never falsy)
    match req.pixelFraction with
    | .num q =>
      if 0 < q ∧ q ≤ 1 then
        .ok { foodName := req.foodName
              pixelFraction := q
              plateAssumptions :=
                { plateDiameterCm := defaultPlateDiameterCm
                  assumedHeightCm := defaultHeightCm
                  plateAreaCm2 := toFixed2 serverPlateAreaCm2 }
              estimatedVolumeMl := toFixed2 (serverEstimatedVolumeMl q)
              density_g_per_ml := toFixed2 density_g_per_ml
              portionEstimate_g := toFixed1 (serverRawPortionGrams q density_g_per_ml) }
      else
        .error "Missing pixelFraction. Frontend should compute mask pixel fraction and send it."
    | _ =>
      .error "Missing pixelFraction. Frontend should compute mask pixel fraction and send it."

/-! ## utils/portion.js -/

/-- The `opts` argument of `estimatePortionFromMaskFraction`; `none` models
an absent property. -/
structure PortionOpts where
  plateDiameterCm : Option ℚ := none
  heightCm : Option ℚ := none

/-- JavaScript `x || d` for an optional numeric property: an absent or zero
(falsy) value yields the default `d`. -/
def jsOrDefault (x : Option ℚ) (d : ℚ) : ℚ :=
  match x with
  | some v => if v = 0 then d else v
  | none => d

/-- The record returned by `estimatePortionFromMaskFraction`
(utils/portion.js lines 10-14). -/
structure PortionBreakdown where
  plateAreaCm2 : ℚ
  estimatedVolumeMl : ℚ
  rawGramsForDensity : ℚ → ℚ

/-- Source: `estimatePortionFromMaskFraction` (utils/portion.js
lines 4-15). -/
def estimatePortionFromMaskFraction (pixelFraction : ℚ) (opts : PortionOpts) :
    PortionBreakdown :=
  let dPlate := jsOrDefault opts.plateDiameterCm 25
  let dHeight := jsOrDefault opts.heightCm (5/2)
  let plateAreaCm2 := jsPi * (dPlate / 2) ^ 2
  let estimatedVolumeMl := pixelFraction * plateAreaCm2 * dHeight
  { plateAreaCm2 := plateAreaCm2
    estimatedVolumeMl := estimatedVolumeMl
    rawGramsForDensity := fun density_g_per_ml => estimatedVolumeMl * density_g_per_ml }

/-! ## Density reply parsing (server.js `getDensityEstimateFromOpenAI`,
lines 253-265): `const match = out.match(/[\d]+(?:\.\d+)?/);
const num = match ? parseFloat(match[0]) : 1.0;` -/

/-- Match of the regex `[\d]+(?:\.\d+)?` at a position whose first
character is a digit: the maximal digit run, then — greedily — a dot followed
by a further nonempty maximal digit run, when present. -/
def numericTokenAt (cs : List Char) : List Char :=
  let ds := cs.takeWhile Char.isDigit
  match cs.dropWhile Char.isDigit with
  | '.' :: rest =>
      let fs := rest.takeWhile Char.isDigit
      if fs = [] then ds else ds ++ '.' :: fs
  | _ => ds

/-- Source: `out.match(/[\d]+(?:\.\d+)?/)`: the leftmost match of the
numeric pattern, i.e. the token starting at the first digit of the text, if
any digit occurs at all. -/
def firstNumericMatch : List Char → Option (List Char)
  | [] => none
  | c :: cs =>
      if c.isDigit then some (numericTokenAt (c :: cs)) else firstNumericMatch cs

/-- Decimal value of a digit run. -/
def digitsToNat (cs : List Char) : ℕ :=
  cs.foldl (fun n c => 10 * n + (c.toNat - 48)) 0

/-- JavaScript `parseFloat`, restricted to the strings the numeric pattern
can produce (`digits` or `digits.digits`). -/
def parseFloatNumeric (cs : List Char) : ℚ :=
  let ds := cs.takeWhile Char.isDigit
  match cs.dropWhile Char.isDigit with
  | '.' :: fs => (digitsToNat ds : ℚ) + (digitsToNat fs : ℚ) / 10 ^ fs.length
  | _ => (digitsToNat ds : ℚ)

/-- Parsing step of `getDensityEstimateFromOpenAI` applied to the raw reply
text: value of the first numeric substring if one exists, else the fallback
`1.0`. -/
def parseDensityReply (out : String) : ℚ :=
  match firstNumericMatch out.data with
  | some m => parseFloatNumeric m
  | none => 1

/-! ## Pixel classification (app.js `computeMaskPixelFraction`,
lines 75-105) -/

/-- One RGBA pixel of the offscreen canvas's `ImageData`
(each channel 0-255). -/
structure Pixel where
  r : ℕ
  g : ℕ
  b : ℕ
  a : ℕ
  deriving DecidableEq

/-- One iteration of the counting loop of `computeMaskPixelFraction` (one
pixel = one stride of 4 over the flat data): `total++`, and `maskPixels++`
when `alpha > 10`, or otherwise when `r + g + b > 10`. -/
def countStep (tm : ℕ × ℕ) (p : Pixel) : ℕ × ℕ :=
  (tm.1 + 1,
    if 10 < p.a then tm.2 + 1
    else if 10 < p.r + p.g + p.b then tm.2 + 1
    else tm.2)

/-- Arithmetic of `computeMaskPixelFraction` on a decoded pixel buffer:
run the counting loop, then `fraction = maskPixels / total`. -/
def computeMaskPixelFraction (data : List Pixel) : ℚ :=
  let tm := data.foldl countStep (0, 0)
  (tm.2 : ℚ) / (tm.1 : ℚ)

/-- Declarative form of the two-tier food rule for a single pixel, as the
claim states it. -/
def isFoodPixel (p : Pixel) : Bool :=
  decide (10 < p.a) || (decide (p.a ≤ 10) && decide (10 < p.r + p.g + p.b))

/-! ## Mask locating (utils/replicate-seg.js `findMaskUrl`, lines 73-101) -/

/-- Source: `out.split('?')[0]` — the part of the string before the first
`?`. -/
def beforeQuery (cs : List Char) : List Char :=
  cs.takeWhile (fun c => c ≠ '?')

/-- Source: `.split('.').pop()` — the suffix after the last `.` (the whole
string when no `.` occurs). -/
def afterLastDot (cs : List Char) : List Char :=
  (cs.reverse.takeWhile (fun c => c ≠ '.')).reverse

/-- Source: `['png', 'jpg', 'jpeg', 'webp'].includes(ext)`. -/
def extAllowed (ext : List Char) : Bool :=
  ext == "png".data || ext == "jpg".data || ext == "jpeg".data || ext == "webp".data

/-- JavaScript `s.startsWith(p)` on our string model. -/
def strStartsWith (s p : String) : Bool := p.data.isPrefixOf s.data

/-- String-acceptance test of `findMaskUrl` (lines 75-78): scheme prefix
`http` or `data:`, and allow-listed extension of the query-stripped trailing
path segment unless the string is inline data. -/
def isMaskString (s : String) : Bool :=
  (strStartsWith s "http" || strStartsWith s "data:")
  && (extAllowed (afterLastDot (beforeQuery s.data)) || strStartsWith s "data:")

mutual
/-- Source: `findMaskUrl` (utils/replicate-seg.js lines 73-101). A falsy
value (the `if (!out)` guard) and every non-matching scalar return `none`; a
string must pass `isMaskString`; an array is scanned left to right — and, when
that scan finds nothing, the `typeof out === 'object'` branch runs on the
array too: its priority-key probes find no such properties on an array and its
`Object.keys` loop revisits exactly the numeric indices, i.e. the same
elements, which is the second `findFirstInList` pass below; an object is
probed at the five priority keys in order and then at all of its keys in
insertion order. -/
def findMaskUrl : JsVal → Option String
  | .str s => if isMaskString s then some s else none
  | .num _ => none
  | .bool _ => none
  | .null => none
  | .arr xs =>
      match findFirstInList xs with
      | some u => some u
      | none => findFirstInList xs
  | .obj fs =>
      match findAtKey "mask" fs with
      | some u => some u
      | none =>
        match findAtKey "masks" fs with
        | some u => some u
        | none =>
          match findAtKey "segmentation" fs with
          | some u => some u
          | none =>
            match findAtKey "segmented_image" fs with
            | some u => some u
            | none =>
              match findAtKey "overlay" fs with
              | some u => some u
              | none => findFirstInFields fs

/-- The `for (const o of out)` loop over an array. -/
def findFirstInList : JsList → Option String
  | .nil => none
  | .cons v rest =>
      match findMaskUrl v with
      | some u => some u
      | none => findFirstInList rest

/-- One probe of the priority-key loop: `if (out[k]) { const v =
findMaskUrl(out[k]); if (v) return v; }`, for the (unique, in a JavaScript
object) field named `k`. -/
def findAtKey (k : String) : JsFields → Option String
  | .nil => none
  | .cons k2 v rest =>
      if k2 = k then (if jsTruthy v then findMaskUrl v else none)
      else findAtKey k rest

/-- The `for (const key of Object.keys(out))` fallback loop. -/
def findFirstInFields : JsFields → Option String
  | .nil => none
  | .cons _ v rest =>
      match findMaskUrl v with
      | some u => some u
      | none => findFirstInFields rest
end

mutual
/-- Test: some string anywhere in the structure passes `isMaskString`. -/
def containsMaskStr : JsVal → Bool
  | .str s => isMaskString s
  | .num _ => false
  | .bool _ => false
  | .null => false
  | .arr xs => containsMaskStrList xs
  | .obj fs => containsMaskStrFields fs

def containsMaskStrList : JsList → Bool
  | .nil => false
  | .cons v rest => containsMaskStr v || containsMaskStrList rest

def containsMaskStrFields : JsFields → Bool
  | .nil => false
  | .cons _ v rest => containsMaskStr v || containsMaskStrFields rest
end

/-- Membership in the ordered priority-key list
`['mask', 'masks', 'segmentation', 'segmented_image', 'overlay']`. -/
def isPriorityKey (k : String) : Bool :=
  k == "mask" || k == "masks" || k == "segmentation"
    || k == "segmented_image" || k == "overlay"

mutual
/-- Modelled from the spec (§4.1), for the C7 comparison: a depth-first
search that, at each mapping level, recurses into the priority keys `mask`,
`masks`, `segmentation`, `segmented_image`, `overlay` in exactly that order
and then scans the *remaining* (non-priority) keys in insertion order;
within a sequence, elements are scanned in original order; a string must pass
the scheme-and-extension rule; the first accepted string wins. -/
def locateSpec : JsVal → Option String
  | .str s => if isMaskString s then some s else none
  | .num _ => none
  | .bool _ => none
  | .null => none
  | .arr xs => locateSpecList xs
  | .obj fs =>
      match locateSpecKey "mask" fs with
      | some u => some u
      | none =>
        match locateSpecKey "masks" fs with
        | some u => some u
        | none =>
          match locateSpecKey "segmentation" fs with
          | some u => some u
          | none =>
            match locateSpecKey "segmented_image" fs with
            | some u => some u
            | none =>
              match locateSpecKey "overlay" fs with
              | some u => some u
              | none => locateSpecRest fs

def locateSpecList : JsList → Option String
  | .nil => none
  | .cons v rest =>
      match locateSpec v with
      | some u => some u
      | none => locateSpecList rest

/-- Recurse into the value stored at key `k`, if the key is present. -/
def locateSpecKey (k : String) : JsFields → Option String
  | .nil => none
  | .cons k2 v rest =>
      if k2 = k then locateSpec v
      else locateSpecKey k rest

/-- Scan of the remaining keys: every field whose key is not a priority
key, in insertion order. -/
def locateSpecRest : JsFields → Option String
  | .nil => none
  | .cons k v rest =>
      if isPriorityKey k then locateSpecRest rest
      else
        match locateSpec v with
        | some u => some u
        | none => locateSpecRest rest
end

/-- Presence of a field named `k` at one object level. -/
def hasKey (k : String) : JsFields → Bool
  | .nil => false
  | .cons k2 _ rest => k2 == k || hasKey k rest

/-- Pairwise distinctness of the keys of one object level. -/
def nodupFields : JsFields → Bool
  | .nil => true
  | .cons k _ rest => !(hasKey k rest) && nodupFields rest

mutual
/-- Well-formed JSON: every object level has pairwise-distinct keys, as
every JavaScript object has. -/
def wfJs : JsVal → Bool
  | .str _ => true
  | .num _ => true
  | .bool _ => true
  | .null => true
  | .arr xs => wfJsList xs
  | .obj fs => nodupFields fs && wfJsFields fs

def wfJsList : JsList → Bool
  | .nil => true
  | .cons v rest => wfJs v && wfJsList rest

def wfJsFields : JsFields → Bool
  | .nil => true
  | .cons _ v rest => wfJs v && wfJsFields rest
end

/-! ## Segmentation create/poll driver (utils/replicate-seg.js
`runModelVersion`, lines 21-110) -/

/-- A Replicate prediction object: its `status` string and its `output`. -/
structure Prediction where
  status : String
  output : JsVal
  deriving DecidableEq

/-- Source: `prediction.status === 'starting' || prediction.status ===
'processing'` (line 51). -/
def pendingStatus (s : String) : Bool := s == "starting" || s == "processing"

/-- The poll loop (lines 50-56), written with `remaining = 60 - tries` so
that the recursion is structural: while the status is pending and
`tries < 60`, wait one second, fetch the next prediction and increment
`tries`. The argument `poll i` is the prediction body returned by the
`(i+1)`-th GET of the prediction URL. Returns the final prediction together
with the final value of `tries`, i.e. the number of polls issued. -/
def pollLoop (poll : ℕ → Prediction) : ℕ → ℕ → Prediction → Prediction × ℕ
  | 0, tries, pred => (pred, tries)
  | rem + 1, tries, pred =>
      if pendingStatus pred.status then
        pollLoop poll rem (tries + 1) (poll tries)
      else (pred, tries)

/-- The object `{ prediction, maskUrl }` returned on success
(lines 106-109). -/
structure SegResult where
  prediction : Prediction
  maskUrl : Option String
  deriving DecidableEq

/-- Source: `runModelVersion` after the creation POST (lines 44-109): poll
while pending when the creation response carries a poll URL
(`resp.data.urls.get`, modelled by `hasPredictionUrl`), throw on a terminal
`failed` status, and otherwise locate a mask in the final prediction's
output and return the prediction together with `maskUrl`. -/
def runModelVersion (initial : Prediction) (hasPredictionUrl : Bool)
    (poll : ℕ → Prediction) : Except String SegResult :=
  let prediction :=
    if hasPredictionUrl then (pollLoop poll 60 0 initial).1 else initial
  if prediction.status == "failed" then
    .error "Replicate prediction failed"
  else
    .ok { prediction := prediction, maskUrl := findMaskUrl prediction.output }

/-! ## Concrete inputs used by the scenario theorems -/

/-- Request of the spec's end-to-end rice scenario: all fields present,
`pixelFraction = 0.30`. -/
def riceRequest : EstimateRequest :=
  { imageBase64 := .str "data:image/jpeg;base64,AAAA"
    maskUrl := .str "https://replicate.delivery/mask.png"
    foodName := .str "rice"
    pixelFraction := .num (3/10) }

/-- Response the handler actually produces for `riceRequest` with density
`0.9`: volume `0.3 × 490.874 × 2.5` rounds to `368.16`, grams to `331.3`. -/
def riceResponse : PortionResponse :=
  { foodName := .str "rice"
    pixelFraction := 3/10
    plateAssumptions :=
      { plateDiameterCm := 25
        assumedHeightCm := 5/2
        plateAreaCm2 := 490.87 }
    estimatedVolumeMl := 368.16
    density_g_per_ml := 0.9
    portionEstimate_g := 331.3 }

/-- Structure `{ segmentation: { mask: "a.png" }, overlay: "b.png" }` of the
C3 scenario, literally as the claim writes it. -/
def c3Structure : JsVal :=
  .obj (.cons "segmentation" (.obj (.cons "mask" (.str "a.png") .nil))
    (.cons "overlay" (.str "b.png") .nil))

/-- The C3 structure with scheme-qualified URLs in place of the bare
file names. -/
def c3StructureUrls : JsVal :=
  .obj (.cons "segmentation"
      (.obj (.cons "mask" (.str "https://host/a.png") .nil))
    (.cons "overlay" (.str "https://host/b.png") .nil))

/-- A structure none of whose strings passes the scheme+extension rule:
a wrong extension under a priority key, a schemeless name, and prose. -/
def c6Example : JsVal :=
  .obj (.cons "mask" (.str "https://host/mask.tiff")
    (.cons "detections"
      (.arr (.cons (.str "banana") (.cons (.str "plate.png") .nil)))
      (.cons "note" (.str "no mask produced") .nil)))

/-- A well-formed structure mixing priority and non-priority keys. -/
def c7Example : JsVal :=
  .obj (.cons "id" (.str "abc123")
    (.cons "overlay" (.str "https://host/overlay.png")
      (.cons "extra"
        (.arr (.cons (.str "https://host/extra.jpg") .nil)) .nil)))

/-! ## Theorems -/

theorem jsPi_pos : 0 < jsPi := by norm_num [jsPi]

/-- C2 counterexample: for `foodName="rice"`, `pixelFraction=0.30`,
`density=0.9` and the default plate, the handler's displayed volume is
`368.16`, not `147.26`, and the displayed grams are `331.3`, not `132.5`
(the claim's values omit the `assumedHeightCm = 2.5` factor);
the claimed triple of output values is therefore false on the code. -/
theorem estimatePortion_rice_ne_claimed_values :
    estimatePortionHandler riceRequest (9/10) = Except.ok riceResponse
    ∧ riceResponse.estimatedVolumeMl ≠ 147.26
    ∧ riceResponse.portionEstimate_g ≠ 132.5 := by
  refine ⟨?_, by norm_num [riceResponse], by norm_num [riceResponse]⟩
  norm_num [estimatePortionHandler, riceRequest, riceResponse, jsTruthy,
    toFixed2, toFixed1, serverEstimatedVolumeMl, serverPlateAreaCm2,
    serverRawPortionGrams, jsPi, defaultPlateDiameterCm, defaultHeightCm,
    Rat.floor]
  rintro ((h | h) | h) <;> exact absurd h (by decide)

/-- C2 (amended): for `foodName="rice"`, `pixelFraction=0.30`, `density=0.9`
and the default plate (diameter 25 cm, height 2.5 cm), the handler produces
`plateAreaCm2 = 490.87`, `estimatedVolumeMl = 368.16` and
`portionGrams = 331.3` after the stated display rounding. -/
theorem estimatePortion_rice_values :
    estimatePortionHandler riceRequest (9/10) = Except.ok riceResponse := by
  norm_num [estimatePortionHandler, riceRequest, riceResponse, jsTruthy,
    toFixed2, toFixed1, serverEstimatedVolumeMl, serverPlateAreaCm2,
    serverRawPortionGrams, jsPi, defaultPlateDiameterCm, defaultHeightCm,
    Rat.floor]
  rintro ((h | h) | h) <;> exact absurd h (by decide)

/-- C4: for every `pixelFraction ∈ (0,1]`, `density > 0` and positive plate
diameter `d` and height `h`, `rawGramsForDensity density` equals
`pixelFraction × π(d/2)² × h × density` exactly (with `π` the program's
`Math.PI` constant, and the volume computed only as
`pixelFraction × plateAreaCm2 × h`), and the grams value is strictly
increasing in the pixel fraction and in the density. -/
theorem portion_grams_formula_and_strictMono
    (pf pf2 density density2 d h : ℚ)
    (hpf0 : 0 < pf) (_hpf1 : pf ≤ 1) (hden : 0 < density)
    (hd : 0 < d) (hh : 0 < h) :
    (estimatePortionFromMaskFraction pf ⟨some d, some h⟩).rawGramsForDensity density
        = pf * (jsPi * (d / 2) ^ 2) * h * density
    ∧ (pf < pf2 →
        (estimatePortionFromMaskFraction pf ⟨some d, some h⟩).rawGramsForDensity density
          < (estimatePortionFromMaskFraction pf2 ⟨some d, some h⟩).rawGramsForDensity density)
    ∧ (density < density2 →
        (estimatePortionFromMaskFraction pf ⟨some d, some h⟩).rawGramsForDensity density
          < (estimatePortionFromMaskFraction pf ⟨some d, some h⟩).rawGramsForDensity density2) := by
  have hpi : 0 < jsPi := jsPi_pos
  have hA : 0 < jsPi * (d / 2) ^ 2 := by positivity
  have hval : ∀ x dd : ℚ,
      (estimatePortionFromMaskFraction x ⟨some d, some h⟩).rawGramsForDensity dd
        = x * (jsPi * (d / 2) ^ 2) * h * dd := by
    intro x dd
    simp only [estimatePortionFromMaskFraction, jsOrDefault]
    rw [if_neg hd.ne', if_neg hh.ne']
  refine ⟨hval pf density, fun hlt => ?_, fun hlt => ?_⟩
  · rw [hval pf density, hval pf2 density]
    exact mul_lt_mul_of_pos_right
      (mul_lt_mul_of_pos_right (mul_lt_mul_of_pos_right hlt hA) hh) hden
  · rw [hval pf density, hval pf density2]
    exact mul_lt_mul_of_pos_left hlt (by positivity)

/-- Witness for the C4 theorem at `pf = 1/4 < pf2 = 1/2`, `density = 1 < 2`,
default-sized plate (`d = 25`, `h = 5/2`). -/
theorem portion_grams_formula_and_strictMono_witness :
    (estimatePortionFromMaskFraction (1/4) ⟨some 25, some (5/2)⟩).rawGramsForDensity 1
        = (1/4) * (jsPi * ((25:ℚ) / 2) ^ 2) * (5/2) * 1
    ∧ ((1:ℚ)/4 < 1/2 →
        (estimatePortionFromMaskFraction (1/4) ⟨some 25, some (5/2)⟩).rawGramsForDensity 1
          < (estimatePortionFromMaskFraction (1/2) ⟨some 25, some (5/2)⟩).rawGramsForDensity 1)
    ∧ ((1:ℚ) < 2 →
        (estimatePortionFromMaskFraction (1/4) ⟨some 25, some (5/2)⟩).rawGramsForDensity 1
          < (estimatePortionFromMaskFraction (1/4) ⟨some 25, some (5/2)⟩).rawGramsForDensity 2) :=
  portion_grams_formula_and_strictMono (1/4) (1/2) 1 2 25 (5/2)
    (by norm_num) (by norm_num) (by norm_num) (by norm_num) (by norm_num)

/-- C5: whenever the other three request fields are present (truthy) but
`pixelFraction` is not a number lying in `(0,1]` — whether missing,
non-numeric, `≤ 0` or `> 1` — the handler answers with the
missing-pixelFraction error and never produces a numeric estimate
(no clamping, no default). -/
theorem estimatePortion_rejects_bad_fraction
    (req : EstimateRequest) (density : ℚ)
    (himg : jsTruthy req.imageBase64 = true)
    (hmask : jsTruthy req.maskUrl = true)
    (hfood : jsTruthy req.foodName = true)
    (hbad : ∀ q : ℚ, req.pixelFraction = JsVal.num q → ¬(0 < q ∧ q ≤ 1)) :
    estimatePortionHandler req density =
      Except.error
        "Missing pixelFraction. Frontend should compute mask pixel fraction and send it." := by
  unfold estimatePortionHandler
  rw [himg, hmask, hfood]
  simp only [Bool.and_self, Bool.not_true, Bool.false_eq_true, if_false]
  cases hpf : req.pixelFraction with
  | num q => simp [hbad q hpf]
  | str s => rfl
  | bool b => rfl
  | null => rfl
  | arr xs => rfl
  | obj fs => rfl

/-- Witness for the C5 theorem: all fields present, `pixelFraction = 1.5`. -/
theorem estimatePortion_rejects_bad_fraction_witness :
    estimatePortionHandler
      { imageBase64 := .str "data:image/jpeg;base64,AAAA"
        maskUrl := .str "https://replicate.delivery/mask.png"
        foodName := .str "rice"
        pixelFraction := .num (3/2) } 1 =
      Except.error
        "Missing pixelFraction. Frontend should compute mask pixel fraction and send it." :=
  estimatePortion_rejects_bad_fraction _ 1 (by decide) (by decide) (by decide)
    (by intro q hq; cases hq; norm_num)

/-- C10: with no options, `estimatePortionFromMaskFraction` computes the same
plate area, the same unrounded volume and (for every density) the same
unrounded grams as the server's inline `/api/estimate-portion` arithmetic with
its defaults (diameter 25 cm, height 2.5 cm), for every pixel fraction and
density: the two portion-math implementations agree. -/
theorem estimatePortionFromMaskFraction_matches_server (pf density : ℚ) :
    (estimatePortionFromMaskFraction pf {}).plateAreaCm2 = serverPlateAreaCm2
    ∧ (estimatePortionFromMaskFraction pf {}).estimatedVolumeMl
        = serverEstimatedVolumeMl pf
    ∧ (estimatePortionFromMaskFraction pf {}).rawGramsForDensity density
        = serverRawPortionGrams pf density := by
  refine ⟨rfl, rfl, rfl⟩

/-- C8: for every reply text the parser returns the value of the first
numeric substring when one exists and the fallback `1.0` otherwise (it is a
total function — no error for any text); in particular
`"The density is about 0.95 g/ml."` parses to `0.95` and
`"I cannot estimate this."` yields `1.0`. -/
theorem parseDensityReply_first_match_or_fallback :
    (∀ out : String,
      (∃ m, firstNumericMatch out.data = some m
            ∧ parseDensityReply out = parseFloatNumeric m)
      ∨ (firstNumericMatch out.data = none ∧ parseDensityReply out = 1))
    ∧ parseDensityReply "The density is about 0.95 g/ml." = 0.95
    ∧ parseDensityReply "I cannot estimate this." = 1 := by
  refine ⟨fun out => ?_, ?_, ?_⟩
  · cases hm : firstNumericMatch out.data with
    | some m => exact .inl ⟨m, rfl, by simp [parseDensityReply, hm]⟩
    | none => exact .inr ⟨rfl, by simp [parseDensityReply, hm]⟩
  · have h1 : firstNumericMatch "The density is about 0.95 g/ml.".data
        = some ['0', '.', '9', '5'] := by decide
    have htake : List.takeWhile Char.isDigit ['0', '.', '9', '5'] = ['0'] := by
      decide
    have hdrop : List.dropWhile Char.isDigit ['0', '.', '9', '5']
        = ['.', '9', '5'] := by decide
    have hint : digitsToNat ['0'] = 0 := by decide
    have hfrac : digitsToNat ['9', '5'] = 95 := by decide
    simp only [parseDensityReply, h1, parseFloatNumeric, htake, hdrop, hint,
      hfrac]
    norm_num
  · have h2 : firstNumericMatch "I cannot estimate this.".data = none := by
      decide
    simp [parseDensityReply, h2]

theorem foldl_countStep (data : List Pixel) (t m : ℕ) :
    data.foldl countStep (t, m)
      = (t + data.length, m + data.countP (fun p => isFoodPixel p)) := by
  induction data generalizing t m with
  | nil => simp
  | cons p ps ih =>
    simp only [List.foldl_cons, countStep, List.length_cons, List.countP_cons]
    rw [ih]
    by_cases h1 : 10 < p.a
    · simp only [if_pos h1, isFoodPixel]
      simp [h1]
      omega
    · by_cases h2 : 10 < p.r + p.g + p.b
      · simp only [if_neg h1, if_pos h2, isFoodPixel]
        simp [h1, h2, Nat.le_of_not_lt h1]
        omega
      · simp only [if_neg h1, if_neg h2, isFoodPixel]
        simp [h1, h2]
        omega

/-- C9: the pixel-fraction meter counts a pixel as food exactly when its
alpha exceeds 10 or (alpha at most 10 and) the red+green+blue sum exceeds
10, and returns food-count / total-count; a nonempty all-opaque buffer
(alpha = 255) yields `1.0` and a nonempty all-transparent-black buffer
yields `0.0`. -/
theorem computeMaskPixelFraction_rule
    (data : List Pixel) (n : ℕ) (hn : 0 < n) :
    computeMaskPixelFraction data
        = (data.countP (fun p => isFoodPixel p) : ℚ) / (data.length : ℚ)
    ∧ computeMaskPixelFraction (List.replicate n ⟨255, 0, 0, 255⟩) = 1
    ∧ computeMaskPixelFraction (List.replicate n ⟨0, 0, 0, 0⟩) = 0 := by
  have hrule : ∀ d : List Pixel,
      computeMaskPixelFraction d
        = (d.countP (fun p => isFoodPixel p) : ℚ) / (d.length : ℚ) := by
    intro d
    show ((d.foldl countStep (0, 0)).2 : ℚ) / ((d.foldl countStep (0, 0)).1 : ℚ)
        = _
    rw [foldl_countStep d 0 0]
    simp
  refine ⟨hrule data, ?_, ?_⟩
  · rw [hrule]
    have hcount : (List.replicate n (⟨255, 0, 0, 255⟩ : Pixel)).countP
        (fun p => isFoodPixel p) = n := by
      simp [List.countP_eq_length_filter, List.filter_replicate, isFoodPixel]
    rw [hcount, List.length_replicate]
    rw [div_self]
    exact_mod_cast hn.ne'
  · rw [hrule]
    have hcount : (List.replicate n (⟨0, 0, 0, 0⟩ : Pixel)).countP
        (fun p => isFoodPixel p) = 0 := by
      simp [List.countP_eq_length_filter, List.filter_replicate, isFoodPixel]
    rw [hcount]
    simp

/-- Witness for the C9 theorem: a concrete two-pixel buffer and `n = 4`. -/
theorem computeMaskPixelFraction_rule_witness :
    computeMaskPixelFraction [⟨200, 10, 10, 255⟩, ⟨0, 0, 0, 0⟩]
        = (([⟨200, 10, 10, 255⟩, ⟨0, 0, 0, 0⟩] : List Pixel).countP
            (fun p => isFoodPixel p) : ℚ)
          / (([⟨200, 10, 10, 255⟩, ⟨0, 0, 0, 0⟩] : List Pixel).length : ℚ)
    ∧ computeMaskPixelFraction (List.replicate 4 ⟨255, 0, 0, 255⟩) = 1
    ∧ computeMaskPixelFraction (List.replicate 4 ⟨0, 0, 0, 0⟩) = 0 :=
  computeMaskPixelFraction_rule [⟨200, 10, 10, 255⟩, ⟨0, 0, 0, 0⟩] 4
    (by norm_num)

/-! ### Soundness of the mask locator: every returned string occurs in the
structure and passes the acceptance test. -/

mutual
theorem findMaskUrl_some_sound (v : JsVal) (s : String)
    (h : findMaskUrl v = some s) :
    containsMaskStr v = true ∧ isMaskString s = true := by
  cases v with
  | str s2 =>
    simp only [findMaskUrl] at h
    by_cases hm : isMaskString s2
    · rw [if_pos hm] at h
      cases h
      exact ⟨by simp [containsMaskStr, hm], hm⟩
    · rw [if_neg hm] at h
      cases h
  | num q => simp [findMaskUrl] at h
  | bool b => simp [findMaskUrl] at h
  | null => simp [findMaskUrl] at h
  | arr xs =>
    simp only [findMaskUrl] at h
    cases hfl : findFirstInList xs with
    | some u =>
      rw [hfl] at h
      cases h
      have hres := findFirstInList_some_sound xs s hfl
      exact ⟨by simp [containsMaskStr, hres.1], hres.2⟩
    | none =>
      rw [hfl] at h
      cases h
  | obj fs =>
    simp only [findMaskUrl] at h
    have key : ∀ k : String, findAtKey k fs = some s →
        containsMaskStr (.obj fs) = true ∧ isMaskString s = true := by
      intro k hk
      have hres := findAtKey_some_sound k fs s hk
      exact ⟨by simp [containsMaskStr, hres.1], hres.2⟩
    cases h1 : findAtKey "mask" fs with
    | some u => rw [h1] at h; cases h; exact key _ h1
    | none =>
    rw [h1] at h
    cases h2 : findAtKey "masks" fs with
    | some u => rw [h2] at h; cases h; exact key _ h2
    | none =>
    rw [h2] at h
    cases h3 : findAtKey "segmentation" fs with
    | some u => rw [h3] at h; cases h; exact key _ h3
    | none =>
    rw [h3] at h
    cases h4 : findAtKey "segmented_image" fs with
    | some u => rw [h4] at h; cases h; exact key _ h4
    | none =>
    rw [h4] at h
    cases h5 : findAtKey "overlay" fs with
    | some u => rw [h5] at h; cases h; exact key _ h5
    | none =>
    rw [h5] at h
    have hres := findFirstInFields_some_sound fs s h
    exact ⟨by simp [containsMaskStr, hres.1], hres.2⟩

theorem findFirstInList_some_sound (xs : JsList) (s : String)
    (h : findFirstInList xs = some s) :
    containsMaskStrList xs = true ∧ isMaskString s = true := by
  cases xs with
  | nil => simp [findFirstInList] at h
  | cons v rest =>
    simp only [findFirstInList] at h
    cases hv : findMaskUrl v with
    | some u =>
      rw [hv] at h
      cases h
      have hres := findMaskUrl_some_sound v s hv
      exact ⟨by simp [containsMaskStrList, hres.1], hres.2⟩
    | none =>
      rw [hv] at h
      have hres := findFirstInList_some_sound rest s h
      exact ⟨by simp [containsMaskStrList, hres.1], hres.2⟩

theorem findAtKey_some_sound (k : String) (fs : JsFields) (s : String)
    (h : findAtKey k fs = some s) :
    containsMaskStrFields fs = true ∧ isMaskString s = true := by
  cases fs with
  | nil => simp [findAtKey] at h
  | cons k2 v rest =>
    simp only [findAtKey] at h
    by_cases hk : k2 = k
    · rw [if_pos hk] at h
      by_cases ht : jsTruthy v
      · rw [if_pos ht] at h
        have hres := findMaskUrl_some_sound v s h
        exact ⟨by simp [containsMaskStrFields, hres.1], hres.2⟩
      · rw [if_neg ht] at h
        cases h
    · rw [if_neg hk] at h
      have hres := findAtKey_some_sound k rest s h
      exact ⟨by simp [containsMaskStrFields, hres.1], hres.2⟩

theorem findFirstInFields_some_sound (fs : JsFields) (s : String)
    (h : findFirstInFields fs = some s) :
    containsMaskStrFields fs = true ∧ isMaskString s = true := by
  cases fs with
  | nil => simp [findFirstInFields] at h
  | cons k v rest =>
    simp only [findFirstInFields] at h
    cases hv : findMaskUrl v with
    | some u =>
      rw [hv] at h
      cases h
      have hres := findMaskUrl_some_sound v s hv
      exact ⟨by simp [containsMaskStrFields, hres.1], hres.2⟩
    | none =>
      rw [hv] at h
      have hres := findFirstInFields_some_sound rest s h
      exact ⟨by simp [containsMaskStrFields, hres.1], hres.2⟩
end

/-- C3 counterexample: on `{ segmentation: { mask: "a.png" }, overlay:
"b.png" }` the locator returns `null`, not `"a.png"`: the bare file names
`"a.png"` and `"b.png"` fail the scheme-prefix requirement (`http`/`data:`)
of the string-acceptance test, so no string in the structure is accepted. -/
theorem findMaskUrl_c3_literal_is_none : findMaskUrl c3Structure = none := by
  decide

/-- C3 (amended): on `{ segmentation: { mask: "https://host/a.png" },
overlay: "https://host/b.png" }` — the claim's structure with
scheme-qualified URLs, as the acceptance rule requires — the locator
returns the `mask` URL nested under the priority key `segmentation`,
explored before the later priority key `overlay`. -/
theorem findMaskUrl_c3_urls :
    findMaskUrl c3StructureUrls = some "https://host/a.png" := by
  decide

/-- C6: (a) whenever no string anywhere in a structure passes the
scheme+extension acceptance rule, the locator returns `none`; (b) the
`runModelVersion` caller then surfaces this as a *success* whose `maskUrl`
is `null` (given a non-`failed` status), not as an error; (c) every string
the locator ever returns begins with `http` or the inline-data prefix
`data:`, and is inline data or has a query-stripped trailing extension in
the allow-list {png, jpg, jpeg, webp}. -/
theorem findMaskUrl_none_when_no_acceptable_string
    (v : JsVal) (pred : Prediction)
    (hv : containsMaskStr v = false)
    (hstatus : pred.status ≠ "failed")
    (hout : containsMaskStr pred.output = false) :
    findMaskUrl v = none
    ∧ runModelVersion pred false (fun _ => pred)
        = .ok { prediction := pred, maskUrl := none }
    ∧ (∀ (w : JsVal) (u : String), findMaskUrl w = some u →
        (strStartsWith u "http" = true ∨ strStartsWith u "data:" = true)
        ∧ (strStartsWith u "data:" = true
           ∨ afterLastDot (beforeQuery u.data) = "png".data
           ∨ afterLastDot (beforeQuery u.data) = "jpg".data
           ∨ afterLastDot (beforeQuery u.data) = "jpeg".data
           ∨ afterLastDot (beforeQuery u.data) = "webp".data)) := by
  have hnone : ∀ w : JsVal, containsMaskStr w = false → findMaskUrl w = none := by
    intro w hw
    cases hfm : findMaskUrl w with
    | none => rfl
    | some u =>
      have := (findMaskUrl_some_sound w u hfm).1
      rw [hw] at this
      cases this
  refine ⟨hnone v hv, ?_, ?_⟩
  · simp only [runModelVersion, Bool.false_eq_true, if_false]
    rw [if_neg (by simp [hstatus]), hnone pred.output hout]
  · intro w u hw
    have him := (findMaskUrl_some_sound w u hw).2
    simp only [isMaskString, Bool.and_eq_true, Bool.or_eq_true] at him
    obtain ⟨h1, h2⟩ := him
    refine ⟨h1, ?_⟩
    rcases h2 with h2 | h2
    · right
      have h3 := h2
      simp only [extAllowed, Bool.or_eq_true, beq_iff_eq] at h3
      tauto
    · left
      exact h2

/-- Witness for the C6 theorem at `c6Example` (wrong extension under a
priority key, schemeless name, prose) with a `succeeded` prediction. -/
theorem findMaskUrl_none_when_no_acceptable_string_witness :
    findMaskUrl c6Example = none
    ∧ runModelVersion ⟨"succeeded", c6Example⟩ false
        (fun _ => ⟨"succeeded", c6Example⟩)
        = .ok { prediction := ⟨"succeeded", c6Example⟩, maskUrl := none }
    ∧ (∀ (w : JsVal) (u : String), findMaskUrl w = some u →
        (strStartsWith u "http" = true ∨ strStartsWith u "data:" = true)
        ∧ (strStartsWith u "data:" = true
           ∨ afterLastDot (beforeQuery u.data) = "png".data
           ∨ afterLastDot (beforeQuery u.data) = "jpg".data
           ∨ afterLastDot (beforeQuery u.data) = "jpeg".data
           ∨ afterLastDot (beforeQuery u.data) = "webp".data)) :=
  findMaskUrl_none_when_no_acceptable_string c6Example
    ⟨"succeeded", c6Example⟩ (by decide) (by decide) (by decide)

/-! ### Equivalence of `findMaskUrl` with the spec-described search -/

/-- A falsy value can never produce a mask in either locator. -/
theorem locate_falsy (v : JsVal) (ht : jsTruthy v = false) :
    findMaskUrl v = none ∧ locateSpec v = none := by
  cases v with
  | str s =>
    have hs : s = "" := by simpa [jsTruthy] using ht
    subst hs
    exact ⟨by decide, by decide⟩
  | num q => exact ⟨rfl, rfl⟩
  | bool b => exact ⟨rfl, rfl⟩
  | null => exact ⟨rfl, rfl⟩
  | arr xs => simp [jsTruthy] at ht
  | obj fs => simp [jsTruthy] at ht

/-- Probing an absent key finds nothing, in either locator. -/
theorem locate_absent_key (k : String) (fs : JsFields)
    (hk : hasKey k fs = false) :
    findAtKey k fs = none ∧ locateSpecKey k fs = none := by
  cases fs with
  | nil => exact ⟨rfl, rfl⟩
  | cons k2 v rest =>
    simp only [hasKey, Bool.or_eq_false_iff] at hk
    simp only [findAtKey, locateSpecKey, if_neg (beq_eq_false_iff_ne.mp hk.1)]
    exact locate_absent_key k rest hk.2

mutual
theorem findMaskUrl_eq_locateSpec (v : JsVal) (hwf : wfJs v = true) :
    findMaskUrl v = locateSpec v := by
  cases v with
  | str s => rfl
  | num q => rfl
  | bool b => rfl
  | null => rfl
  | arr xs =>
    have hwl : wfJsList xs = true := by simpa [wfJs] using hwf
    have heq := findFirstInList_eq_locateSpecList xs hwl
    simp only [findMaskUrl, locateSpec, heq]
    cases locateSpecList xs <;> rfl
  | obj fs =>
    have hparts : nodupFields fs = true ∧ wfJsFields fs = true := by
      simpa [wfJs, Bool.and_eq_true] using hwf
    have hk : ∀ k2 : String, findAtKey k2 fs = locateSpecKey k2 fs :=
      fun k2 => findAtKey_eq_locateSpecKey k2 fs hparts.2
    simp only [findMaskUrl, locateSpec, hk]
    cases h1 : locateSpecKey "mask" fs with
    | some u => rfl
    | none =>
    cases h2 : locateSpecKey "masks" fs with
    | some u => rfl
    | none =>
    cases h3 : locateSpecKey "segmentation" fs with
    | some u => rfl
    | none =>
    cases h4 : locateSpecKey "segmented_image" fs with
    | some u => rfl
    | none =>
    cases h5 : locateSpecKey "overlay" fs with
    | some u => rfl
    | none =>
    refine findFirstInFields_eq_locateSpecRest fs hparts.2 hparts.1 ?_
    intro k2 hk2
    rw [hk k2]
    simp only [isPriorityKey, Bool.or_eq_true, beq_iff_eq] at hk2
    rcases hk2 with (((h | h) | h) | h) | h <;> subst h <;>
      first
      | exact h1
      | exact h2
      | exact h3
      | exact h4
      | exact h5

theorem findFirstInList_eq_locateSpecList (xs : JsList)
    (hwf : wfJsList xs = true) :
    findFirstInList xs = locateSpecList xs := by
  cases xs with
  | nil => rfl
  | cons v rest =>
    have hparts : wfJs v = true ∧ wfJsList rest = true := by
      simpa [wfJsList, Bool.and_eq_true] using hwf
    simp only [findFirstInList, locateSpecList,
      findMaskUrl_eq_locateSpec v hparts.1,
      findFirstInList_eq_locateSpecList rest hparts.2]

theorem findAtKey_eq_locateSpecKey (k : String) (fs : JsFields)
    (hwf : wfJsFields fs = true) :
    findAtKey k fs = locateSpecKey k fs := by
  cases fs with
  | nil => rfl
  | cons k2 v rest =>
    have hparts : wfJs v = true ∧ wfJsFields rest = true := by
      simpa [wfJsFields, Bool.and_eq_true] using hwf
    by_cases hkk : k2 = k
    · simp only [findAtKey, locateSpecKey, if_pos hkk]
      by_cases ht : jsTruthy v
      · rw [if_pos ht, findMaskUrl_eq_locateSpec v hparts.1]
      · have ht' : jsTruthy v = false := by simpa using ht
        rw [if_neg ht, (locate_falsy v ht').2]
    · simp only [findAtKey, locateSpecKey, if_neg hkk]
      exact findAtKey_eq_locateSpecKey k rest hparts.2

theorem findFirstInFields_eq_locateSpecRest (fs : JsFields)
    (hwf : wfJsFields fs = true) (hnd : nodupFields fs = true)
    (hprio : ∀ k2 : String, isPriorityKey k2 = true → findAtKey k2 fs = none) :
    findFirstInFields fs = locateSpecRest fs := by
  cases fs with
  | nil => rfl
  | cons k v rest =>
    have hparts : wfJs v = true ∧ wfJsFields rest = true := by
      simpa [wfJsFields, Bool.and_eq_true] using hwf
    have hnd' : hasKey k rest = false ∧ nodupFields rest = true := by
      simpa [nodupFields, Bool.and_eq_true, Bool.not_eq_true'] using hnd
    have hprio' : ∀ k2 : String, isPriorityKey k2 = true →
        findAtKey k2 rest = none := by
      intro k2 hk2
      by_cases hkk : k = k2
      · subst hkk
        exact (locate_absent_key k rest hnd'.1).1
      · have hthis := hprio k2 hk2
        simp only [findAtKey] at hthis
        rw [if_neg hkk] at hthis
        exact hthis
    by_cases hp : isPriorityKey k = true
    · -- k is a priority key: its probe already came up empty, so its value
      -- contributes nothing to the full scan, and the spec-side scan skips it
      have hknone := hprio k hp
      simp [findAtKey] at hknone
      have hfm : findMaskUrl v = none := by
        by_cases ht : jsTruthy v
        · exact hknone ht
        · exact (locate_falsy v (by simpa using ht)).1
      simp only [findFirstInFields, locateSpecRest, hfm, if_pos hp]
      exact findFirstInFields_eq_locateSpecRest rest hparts.2 hnd'.2 hprio'
    · simp only [findFirstInFields, locateSpecRest, if_neg hp,
        findMaskUrl_eq_locateSpec v hparts.1]
      cases locateSpec v with
      | some u => rfl
      | none =>
        exact findFirstInFields_eq_locateSpecRest rest hparts.2 hnd'.2 hprio'
end

/-- C7: on every well-formed structure (pairwise-distinct keys at each
object level, as every JavaScript object guarantees), `findMaskUrl` computes
exactly the spec-described deterministic depth-first search `locateSpec`:
at each mapping level the priority keys `mask, masks, segmentation,
segmented_image, overlay` are explored in exactly that order before the
remaining keys in insertion order, sequence elements are scanned in original
order, and the first accepted string wins; as a pure function of the
structure, two runs on the same input necessarily return the same result. -/
theorem findMaskUrl_is_priority_dfs (v : JsVal) (hwf : wfJs v = true) :
    findMaskUrl v = locateSpec v :=
  findMaskUrl_eq_locateSpec v hwf

/-- Witness for the C7 theorem at `c7Example` (a non-priority key, a
priority key and an array, with distinct keys). -/
theorem findMaskUrl_is_priority_dfs_witness :
    findMaskUrl c7Example = locateSpec c7Example :=
  findMaskUrl_is_priority_dfs c7Example (by decide)

/-! ### The poll loop under an always-pending service -/

theorem pollLoop_all_pending (poll : ℕ → Prediction) :
    ∀ (rem tries : ℕ) (pred : Prediction),
      pendingStatus pred.status = true →
      (∀ i, pendingStatus (poll i).status = true) →
      (pollLoop poll rem tries pred).2 = tries + rem
      ∧ pendingStatus (pollLoop poll rem tries pred).1.status = true := by
  intro rem
  induction rem with
  | zero =>
    intro tries pred hp _hall
    exact ⟨rfl, hp⟩
  | succ rem ih =>
    intro tries pred hp hall
    simp only [pollLoop, hp, if_true]
    have hrec := ih (tries + 1) (poll tries) (hall tries) hall
    exact ⟨by rw [hrec.1]; omega, hrec.2⟩

/-- C1 counterexample: with a service that always reports `processing`, the
invoker stops after its poll cap but returns a *success* carrying the
still-pending prediction and a null mask — not a timeout-class error — since
the code only throws on the status `failed`; so the claim that every
always-pending poll sequence makes the call's outcome an error is false on
the code. -/
theorem runModelVersion_pending_not_error :
    runModelVersion ⟨"starting", .null⟩ true (fun _ => ⟨"processing", .null⟩)
      = .ok { prediction := ⟨"processing", .null⟩, maskUrl := none } := rfl

/-- C1 (amended): when the creation response is pending and every poll keeps
reporting a pending status (`starting`/`processing`), the invoker polls at
its fixed 1-second interval exactly 60 times and then terminates — it never
hangs — but the outcome is a *success* whose prediction still has a pending
status (and whose `maskUrl` is whatever the locator finds in that pending
output, `null` when there is none); only a final status `failed` produces an
error. -/
theorem runModelVersion_pending_polls_60_and_succeeds
    (initial : Prediction) (poll : ℕ → Prediction)
    (hinit : pendingStatus initial.status = true)
    (hall : ∀ i, pendingStatus (poll i).status = true) :
    (pollLoop poll 60 0 initial).2 = 60
    ∧ pendingStatus (pollLoop poll 60 0 initial).1.status = true
    ∧ runModelVersion initial true poll
        = .ok { prediction := (pollLoop poll 60 0 initial).1
                maskUrl := findMaskUrl (pollLoop poll 60 0 initial).1.output } := by
  have h := pollLoop_all_pending poll 60 0 initial hinit hall
  refine ⟨by simpa using h.1, h.2, ?_⟩
  have hnf : ((pollLoop poll 60 0 initial).1.status == "failed") = false := by
    have hpend := h.2
    simp only [pendingStatus, Bool.or_eq_true, beq_iff_eq] at hpend
    rcases hpend with hs | hs <;> simp [hs]
  simp only [runModelVersion, if_true, hnf, Bool.false_eq_true, if_false]

/-- Witness for the C1 amended theorem at the always-`processing` service. -/
theorem runModelVersion_pending_polls_60_and_succeeds_witness :
    (pollLoop (fun _ => ⟨"processing", .null⟩) 60 0 ⟨"starting", .null⟩).2 = 60
    ∧ pendingStatus
        (pollLoop (fun _ => ⟨"processing", .null⟩) 60 0
          ⟨"starting", .null⟩).1.status = true
    ∧ runModelVersion ⟨"starting", .null⟩ true (fun _ => ⟨"processing", .null⟩)
        = .ok { prediction :=
                  (pollLoop (fun _ => ⟨"processing", .null⟩) 60 0
                    ⟨"starting", .null⟩).1
                maskUrl :=
                  findMaskUrl
                    (pollLoop (fun _ => ⟨"processing", .null⟩) 60 0
                      ⟨"starting", .null⟩).1.output } :=
  runModelVersion_pending_polls_60_and_succeeds ⟨"starting", .null⟩
    (fun _ => ⟨"processing", .null⟩) (by decide) (fun _ => rfl)

end FoodLog
